import Mathlib

/-!
Verification of the arrow translation layer of `duet-rs/duo`
(`src/duo/src/arrow.rs`): row-oriented telemetry records (spans, logs)
to and from columnar record batches.

The embedding is shallow: the four operations (`schema_span`, `schema_log`,
`convert_span_to_record_batch`, `convert_log_to_record_batch`,
`serialize_record_batches`) are translated from the Rust source.  The
behaviour of the external arrow-json library calls they make
(`infer_json_schema_from_iterator`, `Schema::try_merge`,
`ReaderBuilder::build_decoder` / `Decoder::serialize` / `Decoder::flush`,
`ArrayWriter`, `RecordBatch::try_new`) is modelled after that library.
A serialized JSON document is represented by its key-to-value content
(string rendering of a JSON document is injective, and every claim
compares documents semantically); JSON numbers are integers, which covers
every value the claims exercise (floating point stays out of scope).
-/

set_option autoImplicit false

namespace Duo

universe u

variable {α : Type u} {β : Type u} {ε : Type u}

/-! ### Arrow data types, fields and schemas (`arrow_schema`) -/

inductive DataType where
  | uint64
  | int64
  | utf8
  | boolean
  | float64
deriving DecidableEq

structure Field where
  name : String
  dtype : DataType
  nullable : Bool
deriving DecidableEq

abbrev Schema := List Field

/-- `schema_span()` of arrow.rs: the fixed 8-column span schema. -/
def schema_span : Schema :=
  [⟨"id", .uint64, false⟩,
   ⟨"parent_id", .uint64, true⟩,
   ⟨"trace_id", .uint64, false⟩,
   ⟨"name", .utf8, false⟩,
   ⟨"process_id", .utf8, false⟩,
   ⟨"start", .int64, false⟩,
   ⟨"end", .int64, true⟩,
   ⟨"tags", .utf8, true⟩]

/-- `schema_log()` of arrow.rs: the fixed 6-column log schema. -/
def schema_log : Schema :=
  [⟨"process_id", .utf8, false⟩,
   ⟨"time", .int64, false⟩,
   ⟨"trace_id", .uint64, true⟩,
   ⟨"span_id", .uint64, true⟩,
   ⟨"level", .utf8, false⟩,
   ⟨"message", .utf8, true⟩]

/-! ### JSON values

`Json` is a full JSON tree (used for the content of span tag documents).
`JVal` is the value form appearing in row documents and in columnar cells:
scalars plus `doc kvs`, a JSON *string* whose content is the serialized
object `kvs` (the opaque per-row tag document). -/

inductive Json where
  | null
  | bool (b : Bool)
  | int (n : Int)
  | str (s : String)
  | arr (xs : List Json)
  | obj (kvs : List (String × Json))

inductive JVal where
  | null
  | bool (b : Bool)
  | int (n : Int)
  | str (s : String)
  | doc (kvs : List (String × Json))

/-- Machine integer bounds: i64 holds `[i64Lo, i64Hi)`, u64 holds
`[0, u64Hi)`. -/
def i64Lo : Int := -(2 ^ 63)
def i64Hi : Int := 2 ^ 63
def u64Hi : Int := 2 ^ 64

/-! ### Ordered string maps (`serde_json::Map`)

`mapInsert` replaces an existing binding in place or appends a fresh one;
`mapLookup` finds the (unique, once built by inserts) binding.  This gives
the key-to-value semantics shared by `serde_json::Map` regardless of its
backing store. -/

def mapInsert : List (String × α) → String → α → List (String × α)
  | [], k, v => [(k, v)]
  | (k', v') :: rest, k, v =>
    if k' = k then (k, v) :: rest else (k', v') :: mapInsert rest k v

def mapLookup : List (String × α) → String → Option α
  | [], _ => none
  | (k', v) :: rest, k => if k' = k then some v else mapLookup rest k

/-- `Map::extend`: insert every binding of `l` into `m`, later keys winning. -/
def mapExtend (m : List (String × α)) (l : List (String × α)) : List (String × α) :=
  l.foldl (fun acc kv => mapInsert acc kv.1 kv.2) m

/-- Collecting an iterator of pairs into a map: later bindings of a key win. -/
def dedupKeys (l : List (String × α)) : List (String × α) :=
  mapExtend [] l

/-- The keys of a map, in order. -/
def keysOf (m : List (String × α)) : List String :=
  m.map Prod.fst

/-- The last value bound to `k` in a raw pair list — the binding that wins
when the list is collected into a map. -/
def lastBind (l : List (String × α)) (k : String) : Option α :=
  l.foldl (fun r kv => if kv.1 = k then some kv.2 else r) none

/-! ### Fallible iteration (`collect::<Result<_,_>>` / the `?` operator) -/

def optionMapList (f : α → Option β) : List α → Option (List β)
  | [] => some []
  | a :: l =>
    match f a with
    | none => none
    | some b =>
      match optionMapList f l with
      | none => none
      | some bs => some (b :: bs)

inductive ArrowError where
  | decodeTypeError (field : String) (expected : DataType)
  | nullInNonNullable (field : String)
  | mergeConflict (field : String)
  | invalidArgument (msg : String)
deriving DecidableEq

def exceptMapList (f : α → Except ArrowError β) : List α → Except ArrowError (List β)
  | [] => .ok []
  | a :: l =>
    match f a with
    | .error e => .error e
    | .ok b =>
      match exceptMapList f l with
      | .error e => .error e
      | .ok bs => .ok (b :: bs)

/-- Outcome of a Rust call that may return `Ok`, return `Err`, or panic
(`unwrap` / `expect` on a failed value). -/
inductive RunResult (α : Type u) where
  | ok (a : α)
  | err (e : ArrowError)
  | panicked (msg : String)

/-! ### Columns and record batches -/

structure ArrayCol where
  dtype : DataType
  cells : List JVal

structure RecordBatch where
  schema : Schema
  columns : List ArrayCol

def RecordBatch.numRows (b : RecordBatch) : Nat :=
  match b.columns with
  | [] => 0
  | c :: _ => c.cells.length

/-- `RecordBatch::new_empty`: one zero-length column per schema field. -/
def RecordBatch.new_empty (s : Schema) : RecordBatch :=
  ⟨s, s.map fun f => ⟨f.dtype, []⟩⟩

/-- Does a cell conform to a field (type of the backing array, and
nullability)?  `RecordBatch::try_new` validates exactly this. -/
def cellOk (f : Field) : JVal → Bool
  | .null => f.nullable
  | .bool _ =>
    match f.dtype with
    | .boolean => true
    | _ => false
  | .int n =>
    match f.dtype with
    | .int64 => true
    | .uint64 => decide (0 ≤ n)
    | _ => false
  | .str _ =>
    match f.dtype with
    | .utf8 => true
    | _ => false
  | .doc _ =>
    match f.dtype with
    | .utf8 => true
    | _ => false

def colLenOk : List ArrayCol → Bool
  | [] => true
  | c :: rest => rest.all fun d => d.cells.length = c.cells.length

def colsMatch (schema : Schema) (cols : List ArrayCol) : Bool :=
  (schema.zip cols).all fun fc =>
    decide (fc.1.dtype = fc.2.dtype) && fc.2.cells.all (cellOk fc.1)

/-- `RecordBatch::try_new`: column count, equal lengths, and type /
nullability conformance against the schema. -/
def tryNew (schema : Schema) (cols : List ArrayCol) : Except ArrowError RecordBatch :=
  if schema.length = cols.length then
    if colLenOk cols then
      if colsMatch schema cols then .ok ⟨schema, cols⟩
      else .error (.invalidArgument "column types must match schema types")
    else .error (.invalidArgument "all columns must have the same length")
  else .error (.invalidArgument "number of columns must match number of fields")

/-! ### Span rows and the span encoder -/

/-- Modelled from the spec: the tag mapping of a span (the `Span` type lives
in the crate root, which is not under src/).  Tags are an arbitrary
key-to-value mapping; the spec's `SerializationError` presumes a value may
fail to serialize, which `notRepresentable` stands for. -/
inductive TagsVal where
  | json (kvs : List (String × Json))
  | notRepresentable

def TagsVal.kvs : TagsVal → List (String × Json)
  | .json kvs => kvs
  | .notRepresentable => []

/-- `serde_json::to_string(&span.tags)`: the serialized document is
represented by its key-to-value content, later bindings of a key winning
as in any map collect. -/
def serializeTags : TagsVal → Option (List (String × Json))
  | .json kvs => some (dedupKeys kvs)
  | .notRepresentable => none

/-- Modelled from the spec: the `Span` row type (crate root, not under
src/).  `start` and `end` already carry the microsecond values returned by
`start_as_micros` / `end_as_micros`; u64 fields are `Nat`. -/
structure Span where
  id : Nat
  parent_id : Option Nat
  trace_id : Nat
  name : String
  process_id : String
  start : Int
  «end» : Option Int
  tags : TagsVal

def jOfOptNat : Option Nat → JVal
  | none => .null
  | some n => .int n

def jOfOptInt : Option Int → JVal
  | none => .null
  | some n => .int n

def jOfOptStr : Option String → JVal
  | none => .null
  | some s => .str s

/-- The eight column arrays built by `convert_span_to_record_batch`, in
source order, with the per-row serialized tag documents. -/
def spanCols (spans : List Span) : List ArrayCol :=
  [⟨.uint64, spans.map fun s => .int s.id⟩,
   ⟨.uint64, spans.map fun s => jOfOptNat s.parent_id⟩,
   ⟨.uint64, spans.map fun s => .int s.trace_id⟩,
   ⟨.utf8, spans.map fun s => .str s.name⟩,
   ⟨.utf8, spans.map fun s => .str s.process_id⟩,
   ⟨.int64, spans.map fun s => .int s.start⟩,
   ⟨.int64, spans.map fun s => jOfOptInt s.«end»⟩,
   ⟨.utf8, spans.map fun s => .doc (dedupKeys s.tags.kvs)⟩]

/-- `convert_span_to_record_batch` of arrow.rs.  The per-row
`serde_json::to_string(&span.tags).unwrap()` panics when serialization
fails; an empty input returns the empty batch; otherwise the eight arrays
go through `RecordBatch::try_new`. -/
def convert_span_to_record_batch (spans : List Span) : RunResult RecordBatch :=
  match optionMapList (fun s => serializeTags s.tags) spans with
  | none => .panicked "called Option unwrap on a None value"
  | some _ =>
    if spans.isEmpty then .ok (RecordBatch.new_empty schema_span)
    else
      match tryNew schema_span (spanCols spans) with
      | .ok b => .ok b
      | .error e => .err e

/-! ### Log rows and the log encoder -/

/-- Modelled from the spec: the `Log` row type (crate root, not under
src/).  `time` carries the microsecond value returned by `as_micros`;
`level.as_str()` is the `level` string; dynamic `fields` bind keys to
JSON-compatible scalar values (the only shapes the claims exercise). -/
structure Log where
  process_id : String
  time : Int
  trace_id : Option Nat
  span_id : Option Nat
  level : String
  message : Option String
  fields : List (String × JVal)

/-- The six fixed-field inserts performed for every log row. -/
def logFixedDoc (log : Log) : List (String × JVal) :=
  mapInsert (mapInsert (mapInsert (mapInsert (mapInsert (mapInsert []
    "process_id" (.str log.process_id))
    "span_id" (jOfOptNat log.span_id))
    "trace_id" (jOfOptNat log.trace_id))
    "level" (.str log.level))
    "time" (.int log.time))
    "message" (jOfOptStr log.message)

/-- `field_map`: the row's dynamic fields collected into a map. -/
def fieldMapOf (log : Log) : List (String × JVal) :=
  mapExtend [] log.fields

/-- The row document: fixed fields, extended by the dynamic field map when
that map is non-empty (`map.extend(field_map)`). -/
def logDoc (log : Log) : List (String × JVal) :=
  if (fieldMapOf log).isEmpty then logFixedDoc log
  else mapExtend (logFixedDoc log) (fieldMapOf log)

/-- The corpus handed to schema inference: the dynamic-field sub-documents
of the rows whose `fields` mapping is non-empty. -/
def logCorpus (logs : List Log) : List (List (String × JVal)) :=
  logs.filterMap fun l =>
    if (fieldMapOf l).isEmpty then none else some (fieldMapOf l)

/-- The Rust `Log` stores `time` as i64 and the back-references as u64;
the model's `Int`/`Nat` fields carry those machine ranges as a predicate. -/
def inU64 : Option Nat → Bool
  | none => true
  | some n => decide ((n : Int) < u64Hi)

def logInRangeB (l : Log) : Bool :=
  decide (i64Lo ≤ l.time) && decide (l.time < i64Hi) &&
    inU64 l.trace_id && inU64 l.span_id

/-- The six fixed cells of one log row, in `schema_log` column order. -/
def logRowCells (l : Log) : List JVal :=
  [.str l.process_id, .int l.time, jOfOptNat l.trace_id, jOfOptNat l.span_id,
   .str l.level, jOfOptStr l.message]

/-! ### arrow-json schema inference (`infer_json_schema_from_iterator`) -/

/-- The scalar arrow type inferred for one JSON value; `none` for `null`,
which inference skips.  A number outside the i64 range infers `Float64`,
as in arrow-json. -/
def scalarTypeOf : JVal → Option DataType
  | .null => none
  | .bool _ => some .boolean
  | .int n => if i64Lo ≤ n ∧ n < i64Hi then some .int64 else some .float64
  | .str _ => some .utf8
  | .doc _ => some .utf8

def addObservation : List (String × List DataType) → String → DataType → List (String × List DataType)
  | [], k, t => [(k, [t])]
  | (k', ts) :: rest, k, t =>
    if k' = k then (k', ts ++ [t]) :: rest
    else (k', ts) :: addObservation rest k t

def collectDoc (acc : List (String × List DataType)) (doc : List (String × JVal)) :
    List (String × List DataType) :=
  doc.foldl (fun acc kv =>
    match scalarTypeOf kv.2 with
    | none => acc
    | some t => addObservation acc kv.1 t) acc

/-- arrow-json's pairwise type coercion: equal scalars keep their type,
Int64 and Float64 widen to Float64, anything else falls back to Utf8. -/
def coerce2 : DataType → DataType → DataType
  | .boolean, .boolean => .boolean
  | .int64, .int64 => .int64
  | .float64, .float64 => .float64
  | .float64, .int64 => .float64
  | .int64, .float64 => .float64
  | _, _ => .utf8

def coerce_data_type : List DataType → DataType
  | [] => .utf8
  | t :: ts => ts.foldl coerce2 t

/-- `infer_json_schema_from_iterator`: fold every document's scalar
observations per key, then coerce each key's observed types to one column
type.  Every inferred field is nullable.  (On this corpus — every entry is
an object — the library call cannot fail, so its `Result` is elided.) -/
def infer_json_schema_from_iterator (corpus : List (List (String × JVal))) : Schema :=
  (corpus.foldl collectDoc []).map fun kt => ⟨kt.1, coerce_data_type kt.2, true⟩

/-! ### arrow-schema merge (`Schema::try_merge`) -/

/-- `Field::try_merge`: same data type merges (nullability is or-ed),
different data types conflict, naming the field. -/
def fieldTryMerge (f g : Field) : Except ArrowError Field :=
  if f.dtype = g.dtype then .ok ⟨f.name, f.dtype, f.nullable || g.nullable⟩
  else .error (.mergeConflict f.name)

def mergeField : Schema → Field → Except ArrowError Schema
  | [], f => .ok [f]
  | g :: rest, f =>
    if g.name = f.name then
      match fieldTryMerge g f with
      | .error e => .error e
      | .ok m => .ok (m :: rest)
    else
      match mergeField rest f with
      | .error e => .error e
      | .ok rest' => .ok (g :: rest')

/-- `Schema::try_merge(vec![base, extra])`: fold the extra fields into the
base schema, keeping base positions and appending fresh names. -/
def schemaTryMerge (base : Schema) : Schema → Except ArrowError Schema
  | [] => .ok base
  | f :: rest =>
    match mergeField base f with
    | .error e => .error e
    | .ok base' => schemaTryMerge base' rest

/-! ### The arrow-json decoder (`ReaderBuilder::build_decoder`,
`Decoder::serialize`, `Decoder::flush`) -/

/-- Reading one document value into the column of `f`.  `ReaderBuilder`
defaults leave primitive coercion off, so a value of the wrong shape is an
error naming the column; a missing or null value needs a nullable field;
numbers must fit the column's integer range. -/
def decodeCell (f : Field) : Option JVal → Except ArrowError JVal
  | none => if f.nullable then .ok .null else .error (.nullInNonNullable f.name)
  | some .null => if f.nullable then .ok .null else .error (.nullInNonNullable f.name)
  | some (.bool b) =>
    match f.dtype with
    | .boolean => .ok (.bool b)
    | _ => .error (.decodeTypeError f.name f.dtype)
  | some (.int n) =>
    match f.dtype with
    | .int64 =>
      if i64Lo ≤ n ∧ n < i64Hi then .ok (.int n)
      else .error (.decodeTypeError f.name f.dtype)
    | .uint64 =>
      if 0 ≤ n ∧ n < u64Hi then .ok (.int n)
      else .error (.decodeTypeError f.name f.dtype)
    | .float64 => .ok (.int n)
    | _ => .error (.decodeTypeError f.name f.dtype)
  | some (.str s) =>
    match f.dtype with
    | .utf8 => .ok (.str s)
    | _ => .error (.decodeTypeError f.name f.dtype)
  | some (.doc kvs) =>
    match f.dtype with
    | .utf8 => .ok (.doc kvs)
    | _ => .error (.decodeTypeError f.name f.dtype)

/-- One row read against the schema, in schema field order. -/
def decodeRow (schema : Schema) (doc : List (String × JVal)) : Except ArrowError (List JVal) :=
  exceptMapList (fun f => decodeCell f (mapLookup doc f.name)) schema

/-- The columnar arrays assembled by `Decoder::flush` from the decoded
rows (row-major to column-major). -/
def colsOfRows (schema : Schema) (rows : List (List JVal)) : List ArrayCol :=
  (List.range schema.length).map fun j =>
    ⟨(schema.getD j ⟨"", .utf8, true⟩).dtype, rows.map fun r => r.getD j .null⟩

/-- `convert_log_to_record_batch` of arrow.rs: build the row documents and
the dynamic corpus, infer the dynamic schema, merge it with the fixed one
(`.unwrap()` — a conflict panics), decode every row against the merged
schema (an error propagates), and flush — which yields `None`, and so a
panic through `.expect("Empty record batch")`, when there are no rows. -/
def convert_log_to_record_batch (logs : List Log) : RunResult RecordBatch :=
  let data := logs.map logDoc
  let inferred := infer_json_schema_from_iterator (logCorpus logs)
  match schemaTryMerge schema_log inferred with
  | .error _ => .panicked "called Result unwrap on an Err value"
  | .ok schema =>
    match exceptMapList (decodeRow schema) data with
    | .error e => .err e
    | .ok rows =>
      if rows.isEmpty then .panicked "Empty record batch"
      else .ok ⟨schema, colsOfRows schema rows⟩

/-! ### The batch decoder (`serialize_record_batches`) -/

/-- The row documents `ArrayWriter` emits for one batch: one JSON object
per row, null cells omitted. -/
def rowAt (schema : Schema) (cols : List ArrayCol) (i : Nat) : List (String × JVal) :=
  (schema.zip cols).filterMap fun fc =>
    match fc.2.cells.getD i .null with
    | .null => none
    | v => some (fc.1.name, v)

def writeBatchRows (b : RecordBatch) : List (List (String × JVal)) :=
  (List.range b.numRows).map (rowAt b.schema b.columns)

/-- `serialize_record_batches::<T>` of arrow.rs: an empty batch list is an
empty row list; otherwise every batch is written to JSON rows
(`ArrayWriter`) and the whole array is deserialized into the target row
type — `fromDoc` standing for `T`'s `DeserializeOwned` — with a failure
swallowed into the default empty vector (`unwrap_or_default`). -/
def serialize_record_batches {α : Type} (fromDoc : List (String × JVal) → Option α)
    (batches : List RecordBatch) : Except ArrowError (List α) :=
  if batches.isEmpty then .ok []
  else .ok ((optionMapList fromDoc ((batches.map writeBatchRows).flatten)).getD [])

/-! ### Span deserialization (decode target `T = Span`) -/

def natFromJVal : Option JVal → Option Nat
  | some (.int n) => if 0 ≤ n then some n.toNat else none
  | _ => none

def optNatFromJVal : Option JVal → Option (Option Nat)
  | none => some none
  | some .null => some none
  | some (.int n) => if 0 ≤ n then some (some n.toNat) else none
  | _ => none

def intFromJVal : Option JVal → Option Int
  | some (.int n) => some n
  | _ => none

def optIntFromJVal : Option JVal → Option (Option Int)
  | none => some none
  | some .null => some none
  | some (.int n) => some (some n)
  | _ => none

def strFromJVal : Option JVal → Option String
  | some (.str s) => some s
  | _ => none

def tagsFromJVal : Option JVal → Option TagsVal
  | some (.doc kvs) => some (.json kvs)
  | _ => none

/-- Modelled from the spec: `Span`'s `DeserializeOwned` (crate root, not
under src/) — each field is read from the row document by name, optional
fields treating a missing or null entry as absent, and the tag document
string is parsed back into structured data. -/
def spanFromDoc (doc : List (String × JVal)) : Option Span := do
  let id ← natFromJVal (mapLookup doc "id")
  let parent_id ← optNatFromJVal (mapLookup doc "parent_id")
  let trace_id ← natFromJVal (mapLookup doc "trace_id")
  let name ← strFromJVal (mapLookup doc "name")
  let process_id ← strFromJVal (mapLookup doc "process_id")
  let start ← intFromJVal (mapLookup doc "start")
  let endv ← optIntFromJVal (mapLookup doc "end")
  let tags ← tagsFromJVal (mapLookup doc "tags")
  some ⟨id, parent_id, trace_id, name, process_id, start, endv, tags⟩

/-- The row document `ArrayWriter` emits for one span row: the eight
cells in schema order, the null `parent_id` / `end` cells omitted. -/
def docOfSpan (s : Span) : List (String × JVal) :=
  ("id", JVal.int s.id) ::
    ((match s.parent_id with
      | none => []
      | some p => [("parent_id", JVal.int p)]) ++
     (("trace_id", JVal.int s.trace_id) ::
      ("name", JVal.str s.name) ::
      ("process_id", JVal.str s.process_id) ::
      ("start", JVal.int s.start) ::
        ((match s.«end» with
          | none => []
          | some e => [("end", JVal.int e)]) ++
         [("tags", JVal.doc (dedupKeys s.tags.kvs))])))

/-- A span as decode reconstructs it: identical fields, the tag document
parsed back as its collected (deduplicated) key-to-value form. -/
def canonSpan (s : Span) : Span :=
  ⟨s.id, s.parent_id, s.trace_id, s.name, s.process_id, s.start, s.«end»,
    .json (dedupKeys s.tags.kvs)⟩

/-! ### Semantic comparison of rows -/

/-- Tag documents compared as structured data: equal key-to-value maps,
key order irrelevant. -/
def tagsSemEq : TagsVal → TagsVal → Prop
  | .json a, .json b => ∀ k, mapLookup (dedupKeys a) k = mapLookup (dedupKeys b) k
  | .notRepresentable, .notRepresentable => True
  | _, _ => False

/-- Field-for-field span equality, tags compared semantically. -/
def spanSemEq (s t : Span) : Prop :=
  s.id = t.id ∧ s.parent_id = t.parent_id ∧ s.trace_id = t.trace_id ∧
  s.name = t.name ∧ s.process_id = t.process_id ∧ s.start = t.start ∧
  s.«end» = t.«end» ∧ tagsSemEq s.tags t.tags

/-- C7 helper: the span schema, spelled out. -/
def spanSchemaExplicit : Schema :=
  [⟨"id", .uint64, false⟩,
   ⟨"parent_id", .uint64, true⟩,
   ⟨"trace_id", .uint64, false⟩,
   ⟨"name", .utf8, false⟩,
   ⟨"process_id", .utf8, false⟩,
   ⟨"start", .int64, false⟩,
   ⟨"end", .int64, true⟩,
   ⟨"tags", .utf8, true⟩]

/-- A span whose tag value is not representable. -/
def spanBad : Span := ⟨1, none, 1, "n", "p", 0, none, .notRepresentable⟩

/-- A log row whose dynamic `message` field collides, at equal type, with
the fixed `message` column. -/
def logCollideSame : Log := ⟨"a", 10, none, none, "INFO", some "orig", [("message", .str "dyn")]⟩

/-- A log row whose dynamic `time` field collides, at a different type,
with the fixed `time` column. -/
def logCollideDiff : Log := ⟨"a", 10, none, none, "INFO", none, [("time", .str "late")]⟩

/-- Two log rows binding the dynamic key `k` to an integer and a string. -/
def logIntK : Log := ⟨"a", 10, none, none, "INFO", none, [("k", .int 1)]⟩
def logStrK : Log := ⟨"a", 20, none, none, "WARN", none, [("k", .str "s")]⟩

/-- A one-row batch whose row document lacks every field `Span` requires. -/
def batchMissingId : RecordBatch := ⟨[⟨"name", .utf8, false⟩], [⟨.utf8, [.str "x"]⟩]⟩

/-- A log row with no dynamic fields. -/
def logEmptyFields : Log := ⟨"a", 10, none, none, "INFO", none, []⟩

/-- The spec's example span. -/
def span0 : Span := ⟨1, none, 42, "root", "svc-a", 1000, some 2000, .json [("x", .int 1)]⟩

/-! ### Helper lemmas -/

theorem mapLookup_mapInsert {α : Type u} (m : List (String × α)) (k k' : String) (v : α) :
    mapLookup (mapInsert m k v) k' = if k = k' then some v else mapLookup m k' := by
  induction m with
  | nil => simp [mapInsert, mapLookup]
  | cons p rest ih =>
    obtain ⟨a, b⟩ := p
    by_cases hak : a = k
    · subst hak
      simp only [mapInsert, if_pos rfl, mapLookup]
      by_cases hkk : a = k'
      · subst hkk; simp
      · simp [hkk]
    · simp only [mapInsert, if_neg hak, mapLookup]
      by_cases hak' : a = k'
      · subst hak'
        rw [if_pos rfl, if_neg fun h => hak h.symm, if_pos rfl]
      · simp [hak', ih]

theorem lastBind_foldl_init {α : Type u} (l : List (String × α)) (k : String) (r : Option α) :
    l.foldl (fun r kv => if kv.1 = k then some kv.2 else r) r =
      match lastBind l k with
      | some v => some v
      | none => r := by
  induction l generalizing r with
  | nil => simp [lastBind]
  | cons p rest ih =>
    simp only [lastBind, List.foldl_cons] at *
    rw [ih, ih (if p.1 = k then some p.2 else none)]
    cases h : rest.foldl (fun r kv => if kv.1 = k then some kv.2 else r) none
    · simp only []
      split <;> rfl
    · rfl

theorem lastBind_cons {α : Type u} (p : String × α) (rest : List (String × α)) (k : String) :
    lastBind (p :: rest) k =
      match lastBind rest k with
      | some v => some v
      | none => if p.1 = k then some p.2 else none := by
  simp only [lastBind, List.foldl_cons]
  exact lastBind_foldl_init rest k _

theorem mapLookup_mapExtend {α : Type u} (m l : List (String × α)) (k : String) :
    mapLookup (mapExtend m l) k =
      match lastBind l k with
      | some v => some v
      | none => mapLookup m k := by
  induction l generalizing m with
  | nil => simp [mapExtend, lastBind]
  | cons p rest ih =>
    simp only [mapExtend, List.foldl_cons] at *
    rw [ih, lastBind_cons]
    cases h : lastBind rest k
    · simp only [mapLookup_mapInsert]
      by_cases hp : p.1 = k
      · simp [hp]
      · simp [hp]
    · rfl

theorem mem_keysOf_mapInsert {α : Type u} (m : List (String × α)) (k k' : String) (v : α) :
    k' ∈ keysOf (mapInsert m k v) ↔ k' ∈ keysOf m ∨ k' = k := by
  induction m with
  | nil => simp [mapInsert, keysOf]
  | cons p rest ih =>
    by_cases hp : p.1 = k
    · subst hp
      have he : mapInsert (p :: rest) p.1 v = (p.1, v) :: rest := by
        simp [mapInsert]
      rw [he]
      simp only [keysOf, List.map_cons, List.mem_cons]
      tauto
    · have he : mapInsert (p :: rest) k v = p :: mapInsert rest k v := by
        simp [mapInsert, hp]
      rw [he]
      simp only [keysOf, List.map_cons, List.mem_cons]
      rw [show (k' ∈ List.map Prod.fst (mapInsert rest k v)) ↔
            (k' ∈ keysOf (mapInsert rest k v)) from Iff.rfl, ih]
      simp only [keysOf]
      tauto

theorem nodup_keysOf_mapInsert {α : Type u} (m : List (String × α)) (k : String) (v : α)
    (h : (keysOf m).Nodup) : (keysOf (mapInsert m k v)).Nodup := by
  induction m with
  | nil => simp [mapInsert, keysOf]
  | cons p rest ih =>
    simp only [keysOf, List.map_cons, List.nodup_cons] at h
    by_cases hp : p.1 = k
    · subst hp
      have he : mapInsert (p :: rest) p.1 v = (p.1, v) :: rest := by
        simp [mapInsert]
      rw [he]
      simpa [keysOf, List.nodup_cons] using h
    · have he : mapInsert (p :: rest) k v = p :: mapInsert rest k v := by
        simp [mapInsert, hp]
      rw [he]
      simp only [keysOf, List.map_cons, List.nodup_cons]
      refine ⟨?_, ih h.2⟩
      intro hmem
      rcases (mem_keysOf_mapInsert rest k p.1 v).mp hmem with hin | rfl
      · exact h.1 hin
      · exact hp rfl

theorem nodup_keysOf_mapExtend {α : Type u} (m l : List (String × α))
    (h : (keysOf m).Nodup) : (keysOf (mapExtend m l)).Nodup := by
  induction l generalizing m with
  | nil => exact h
  | cons p rest ih =>
    simp only [mapExtend, List.foldl_cons] at *
    exact ih _ (nodup_keysOf_mapInsert m p.1 p.2 h)

theorem nodup_keysOf_dedupKeys {α : Type u} (l : List (String × α)) :
    (keysOf (dedupKeys l)).Nodup :=
  nodup_keysOf_mapExtend [] l (by simp [keysOf])

theorem lastBind_eq_none_of_not_mem {α : Type u} (m : List (String × α)) (k : String)
    (h : k ∉ keysOf m) : lastBind m k = none := by
  induction m with
  | nil => rfl
  | cons p rest ih =>
    simp only [keysOf, List.map_cons, List.mem_cons] at h
    push_neg at h
    rw [lastBind_cons, ih (by simpa [keysOf] using h.2)]
    simp [Ne.symm h.1]

theorem mapLookup_eq_none_of_not_mem {α : Type u} (m : List (String × α)) (k : String)
    (h : k ∉ keysOf m) : mapLookup m k = none := by
  induction m with
  | nil => rfl
  | cons p rest ih =>
    simp only [keysOf, List.map_cons, List.mem_cons] at h
    push_neg at h
    simp only [mapLookup, if_neg (Ne.symm h.1)]
    exact ih (by simpa [keysOf] using h.2)

theorem lastBind_eq_mapLookup {α : Type u} (m : List (String × α)) (k : String)
    (h : (keysOf m).Nodup) : lastBind m k = mapLookup m k := by
  induction m with
  | nil => rfl
  | cons p rest ih =>
    simp only [keysOf, List.map_cons, List.nodup_cons] at h
    rw [lastBind_cons, ih h.2]
    by_cases hp : p.1 = k
    · subst hp
      rw [mapLookup_eq_none_of_not_mem rest p.1 h.1]
      simp [mapLookup]
    · obtain ⟨a, b⟩ := p
      simp only at hp
      simp only [mapLookup, if_neg hp]
      cases mapLookup rest k <;> simp [hp]

/-- Looking up in a twice-collected map equals looking up in the
once-collected map: `dedupKeys` is idempotent up to lookup. -/
theorem mapLookup_dedupKeys_dedupKeys {α : Type u} (l : List (String × α)) (k : String) :
    mapLookup (dedupKeys (dedupKeys l)) k = mapLookup (dedupKeys l) k := by
  rw [show dedupKeys (dedupKeys l) = mapExtend [] (dedupKeys l) from rfl,
    mapLookup_mapExtend, lastBind_eq_mapLookup _ _ (nodup_keysOf_dedupKeys l)]
  cases mapLookup (dedupKeys l) k <;> rfl

theorem exceptMapList_map {α β γ : Type u} (f : β → Except ArrowError γ) (g : α → β)
    (l : List α) :
    exceptMapList f (l.map g) = exceptMapList (fun a => f (g a)) l := by
  induction l with
  | nil => rfl
  | cons a as ih => simp [exceptMapList, ih]

theorem exceptMapList_ok_of_forall {α β : Type u} (f : α → Except ArrowError β) (g : α → β)
    (l : List α) (h : ∀ a ∈ l, f a = .ok (g a)) :
    exceptMapList f l = .ok (l.map g) := by
  induction l with
  | nil => rfl
  | cons a as ih =>
    simp [exceptMapList, h a (List.mem_cons_self a as),
      ih fun x hx => h x (List.mem_cons_of_mem a hx)]

theorem logFixedDoc_eq (l : Log) :
    logFixedDoc l =
      [("process_id", .str l.process_id), ("span_id", jOfOptNat l.span_id),
       ("trace_id", jOfOptNat l.trace_id), ("level", .str l.level),
       ("time", .int l.time), ("message", jOfOptStr l.message)] := by
  simp [logFixedDoc, mapInsert]

theorem cell_process_id (l : Log) :
    decodeCell ⟨"process_id", .utf8, false⟩ (mapLookup (logFixedDoc l) "process_id") =
      .ok (.str l.process_id) := by
  rw [logFixedDoc_eq]; simp [mapLookup, decodeCell]

theorem cell_time (l : Log) (h1 : i64Lo ≤ l.time) (h2 : l.time < i64Hi) :
    decodeCell ⟨"time", .int64, false⟩ (mapLookup (logFixedDoc l) "time") =
      .ok (.int l.time) := by
  rw [logFixedDoc_eq]; simp [mapLookup, decodeCell, h1, h2]

theorem cell_trace_id (l : Log) (h : inU64 l.trace_id = true) :
    decodeCell ⟨"trace_id", .uint64, true⟩ (mapLookup (logFixedDoc l) "trace_id") =
      .ok (jOfOptNat l.trace_id) := by
  rw [logFixedDoc_eq]
  cases htid : l.trace_id with
  | none => simp [mapLookup, decodeCell, jOfOptNat]
  | some n =>
    rw [htid] at h
    simp only [inU64, decide_eq_true_eq] at h
    simp [mapLookup, decodeCell, jOfOptNat, h]

theorem cell_span_id (l : Log) (h : inU64 l.span_id = true) :
    decodeCell ⟨"span_id", .uint64, true⟩ (mapLookup (logFixedDoc l) "span_id") =
      .ok (jOfOptNat l.span_id) := by
  rw [logFixedDoc_eq]
  cases hsid : l.span_id with
  | none => simp [mapLookup, decodeCell, jOfOptNat]
  | some n =>
    rw [hsid] at h
    simp only [inU64, decide_eq_true_eq] at h
    simp [mapLookup, decodeCell, jOfOptNat, h]

theorem cell_level (l : Log) :
    decodeCell ⟨"level", .utf8, false⟩ (mapLookup (logFixedDoc l) "level") =
      .ok (.str l.level) := by
  rw [logFixedDoc_eq]; simp [mapLookup, decodeCell]

theorem cell_message (l : Log) :
    decodeCell ⟨"message", .utf8, true⟩ (mapLookup (logFixedDoc l) "message") =
      .ok (jOfOptStr l.message) := by
  rw [logFixedDoc_eq]
  cases l.message <;> simp [mapLookup, decodeCell, jOfOptStr]

/-- A log row whose fields are in machine range decodes against the fixed
schema to its six fixed cells. -/
theorem decodeRow_fixed (l : Log) (hr : logInRangeB l = true) :
    decodeRow schema_log (logFixedDoc l) = .ok (logRowCells l) := by
  simp only [logInRangeB, Bool.and_eq_true, decide_eq_true_eq] at hr
  simp only [decodeRow, schema_log, exceptMapList]
  rw [cell_process_id, cell_time l hr.1.1.1 hr.1.1.2, cell_trace_id l hr.1.2,
    cell_span_id l hr.2, cell_level, cell_message]
  rfl

theorem optionMapList_map {α β γ : Type u} (f : β → Option γ) (g : α → β) (l : List α) :
    optionMapList f (l.map g) = optionMapList (fun a => f (g a)) l := by
  induction l with
  | nil => rfl
  | cons a as ih => simp [optionMapList, ih]

theorem optionMapList_some_of_forall {α β : Type u} (f : α → Option β) (g : α → β)
    (l : List α) (h : ∀ a ∈ l, f a = some (g a)) :
    optionMapList f l = some (l.map g) := by
  induction l with
  | nil => rfl
  | cons a as ih =>
    simp [optionMapList, h a (List.mem_cons_self a as),
      ih fun x hx => h x (List.mem_cons_of_mem a hx)]

theorem serializeTags_of_isSome (t : TagsVal) (h : (serializeTags t).isSome) :
    serializeTags t = some (dedupKeys t.kvs) := by
  cases t with
  | json kvs => rfl
  | notRepresentable => exact absurd h (by simp [serializeTags])

theorem colsMatch_span (spans : List Span) : colsMatch schema_span (spanCols spans) = true := by
  simp only [colsMatch, schema_span, spanCols, List.zip_cons_cons, List.zip_nil_right,
    List.all_cons, List.all_nil, Bool.and_true, Bool.and_eq_true, decide_eq_true_eq,
    List.all_map, List.all_eq_true, eq_self_iff_true, true_and, and_true]
  refine ⟨fun c hc => ?_, fun c hc => ?_, fun c hc => ?_, fun c hc => ?_,
    fun c hc => ?_, fun c hc => ?_, fun c hc => ?_, fun c hc => ?_⟩ <;>
    obtain ⟨t, ht, rfl⟩ := List.mem_map.mp hc
  · simp [cellOk]
  · cases t.parent_id <;> simp [cellOk, jOfOptNat]
  · simp [cellOk]
  · simp [cellOk]
  · simp [cellOk]
  · simp [cellOk]
  · cases t.«end» <;> simp [cellOk, jOfOptInt]
  · simp [cellOk]

theorem tryNew_spanCols (spans : List Span) :
    tryNew schema_span (spanCols spans) = .ok ⟨schema_span, spanCols spans⟩ := by
  unfold tryNew
  rw [if_pos (by simp [schema_span, spanCols]), if_pos (by simp [colLenOk, spanCols]),
    if_pos (colsMatch_span spans)]

/-- Shared encode-success lemma: with every tag document serializable and
a non-empty input, the span encoder returns the eight-column batch. -/
theorem encode_spans_ok (spans : List Span) (h1 : spans ≠ [])
    (h2 : ∀ s ∈ spans, (serializeTags s.tags).isSome) :
    convert_span_to_record_batch spans = .ok ⟨schema_span, spanCols spans⟩ := by
  have htags : optionMapList (fun s => serializeTags s.tags) spans =
      some (spans.map fun s => dedupKeys s.tags.kvs) :=
    optionMapList_some_of_forall _ _ spans fun s hs =>
      serializeTags_of_isSome s.tags (h2 s hs)
  have hne : spans.isEmpty = false := by
    cases spans with
    | nil => exact absurd rfl h1
    | cons a as => rfl
  simp only [convert_span_to_record_batch, htags, hne, Bool.false_eq_true, if_false,
    tryNew_spanCols]

theorem rowAt_succ (schema : Schema) (cols : List ArrayCol) (i : Nat) :
    rowAt schema cols (i + 1) =
      rowAt schema (cols.map fun c => ⟨c.dtype, c.cells.tail⟩) i := by
  unfold rowAt
  rw [List.zip_map_right, List.filterMap_map]
  congr 1
  funext fc
  cases hc : fc.2.cells with
  | nil => simp [hc]
  | cons x xs => simp [hc]

theorem writeBatchRows_spans (spans : List Span) :
    writeBatchRows ⟨schema_span, spanCols spans⟩ = spans.map docOfSpan := by
  induction spans with
  | nil => rfl
  | cons s rest ih =>
    have hnum : (RecordBatch.mk schema_span (spanCols (s :: rest))).numRows =
        rest.length + 1 := by
      simp [RecordBatch.numRows, spanCols]
    rw [writeBatchRows, hnum, List.range_succ_eq_map, List.map_cons, List.map_map]
    congr 1
    · rcases s with ⟨id, pid, tid, nm, prid, st, en, tg⟩
      cases pid <;> cases en <;>
        simp [rowAt, spanCols, schema_span, docOfSpan, jOfOptNat, jOfOptInt]
    · rw [← ih, writeBatchRows]
      have hnum2 : (RecordBatch.mk schema_span (spanCols rest)).numRows = rest.length := by
        simp [RecordBatch.numRows, spanCols]
      rw [hnum2]
      refine List.map_congr_left fun i hi => ?_
      show rowAt schema_span (spanCols (s :: rest)) (i + 1) = rowAt schema_span (spanCols rest) i
      rw [rowAt_succ]
      congr 1

theorem spanFromDoc_docOfSpan (s : Span) :
    spanFromDoc (docOfSpan s) = some (canonSpan s) := by
  rcases s with ⟨id, pid, tid, nm, prid, st, en, tg⟩
  cases pid <;> cases en <;>
    simp [spanFromDoc, docOfSpan, canonSpan, mapLookup, natFromJVal, optNatFromJVal,
      intFromJVal, optIntFromJVal, strFromJVal, tagsFromJVal]

theorem serialize_spanBatch (spans : List Span) :
    serialize_record_batches spanFromDoc [RecordBatch.mk schema_span (spanCols spans)] =
      .ok (spans.map canonSpan) := by
  rw [serialize_record_batches, if_neg (by simp)]
  simp only [List.map_cons, List.map_nil, List.flatten_cons, List.flatten_nil,
    List.append_nil, writeBatchRows_spans, optionMapList_map]
  rw [optionMapList_some_of_forall _ _ spans fun s hs => spanFromDoc_docOfSpan s]
  rfl

theorem optionMapList_eq_none_of_mem {α β : Type u} (f : α → Option β) {l : List α} {a : α}
    (ha : a ∈ l) (h : f a = none) : optionMapList f l = none := by
  induction l with
  | nil => cases ha
  | cons x xs ih =>
    rcases List.mem_cons.mp ha with rfl | hxs
    · simp [optionMapList, h]
    · unfold optionMapList
      rcases hfx : f x with _ | b
      · rfl
      · rw [ih hxs]

/-- C7: `encode_spans([])` succeeds with a zero-row batch whose schema is
exactly the 8 span columns in fixed order with the stated types and
nullability. -/
theorem C7_encode_spans_empty :
    ∃ b, convert_span_to_record_batch [] = .ok b ∧
      b.numRows = 0 ∧ b.schema = spanSchemaExplicit :=
  ⟨RecordBatch.new_empty schema_span, rfl, rfl, rfl⟩

/-- C1: empty input succeeds for the span encoder and the batch decoder,
but `encode_logs([])` does not return a batch: `Decoder::flush` yields no
batch for zero buffered rows and the `.expect("Empty record batch")` on it
panics. -/
theorem C1_empty_input_encode_logs_panics :
    convert_span_to_record_batch [] = .ok (RecordBatch.new_empty schema_span) ∧
    serialize_record_batches spanFromDoc [] = .ok [] ∧
    convert_log_to_record_batch [] = .panicked "Empty record batch" :=
  ⟨rfl, rfl, rfl⟩

/-- C5 counterexample: on a span whose tags fail to serialize, the encoder
panics (aborts) through `unwrap`; it does not return an error value to its
caller. -/
theorem C5_counterexample :
    convert_span_to_record_batch [spanBad] =
      .panicked "called Option unwrap on a None value" := rfl

/-- C5 amended: any input containing a span whose tags cannot be
serialized makes `encode_spans` panic through the per-row `unwrap`, rather
than surface an error value. -/
theorem C5_nonserializable_tags_panic (spans : List Span) (s : Span)
    (hs : s ∈ spans) (h : serializeTags s.tags = none) :
    convert_span_to_record_batch spans =
      .panicked "called Option unwrap on a None value" := by
  unfold convert_span_to_record_batch
  rw [optionMapList_eq_none_of_mem (fun t => serializeTags t.tags) hs h]

theorem C5_witness :
    spanBad ∈ [spanBad] ∧ serializeTags spanBad.tags = none ∧
    convert_span_to_record_batch [spanBad] =
      .panicked "called Option unwrap on a None value" :=
  ⟨by simp, rfl, C5_nonserializable_tags_panic [spanBad] spanBad (by simp) rfl⟩

/-- C6 counterexample: a non-empty batch whose single row document lacks
the `id` field (and all others) that the `Span` target requires makes
`decode` return success with the empty row list — no `DecodeError` reaches
the caller. -/
theorem C6_counterexample :
    writeBatchRows batchMissingId = [[("name", .str "x")]] ∧
    spanFromDoc [("name", .str "x")] = none ∧
    serialize_record_batches spanFromDoc [batchMissingId] = .ok [] :=
  ⟨rfl, rfl, rfl⟩

/-- C6 amended: whenever deserialization of the written row documents into
the target type fails, `decode` swallows the failure through
`unwrap_or_default` and returns success with the empty row list. -/
theorem C6_decode_failure_swallowed {α : Type}
    (fromDoc : List (String × JVal) → Option α) (batches : List RecordBatch)
    (h1 : batches ≠ [])
    (h2 : optionMapList fromDoc ((batches.map writeBatchRows).flatten) = none) :
    serialize_record_batches fromDoc batches = .ok [] := by
  unfold serialize_record_batches
  rw [if_neg (by simpa using h1), h2]
  rfl

theorem C6_witness :
    [batchMissingId] ≠ [] ∧
    optionMapList spanFromDoc (([batchMissingId].map writeBatchRows).flatten) = none ∧
    serialize_record_batches spanFromDoc [batchMissingId] = .ok [] :=
  ⟨by simp, rfl, C6_decode_failure_swallowed spanFromDoc [batchMissingId] (by simp) rfl⟩

/-- C4 counterexample: a dynamic `message` field of the fixed column's
type does not make `encode_logs` fail with a merge error — encoding
succeeds, and the batch's `message` cell holds the dynamic value `"dyn"`
instead of the row's fixed value `"orig"`. -/
theorem C4_counterexample :
    convert_log_to_record_batch [logCollideSame] =
      .ok ⟨schema_log,
        [⟨.utf8, [.str "a"]⟩, ⟨.int64, [.int 10]⟩, ⟨.uint64, [.null]⟩,
         ⟨.uint64, [.null]⟩, ⟨.utf8, [.str "INFO"]⟩, ⟨.utf8, [.str "dyn"]⟩]⟩ := rfl

/-- C4 amended: a dynamic key colliding with a fixed column name is never
a returned merge error.  At equal types the dynamic value silently
overwrites the fixed one and encoding succeeds; at different types the
merge conflict is `unwrap`-ed, panicking instead of returning the error. -/
theorem C4_collision_overwrites_or_panics :
    (∃ b, convert_log_to_record_batch [logCollideSame] = .ok b ∧
      b.columns.getD 5 ⟨.utf8, []⟩ = ⟨.utf8, [.str "dyn"]⟩) ∧
    convert_log_to_record_batch [logCollideDiff] =
      .panicked "called Result unwrap on an Err value" :=
  ⟨⟨_, rfl, rfl⟩, rfl⟩

/-- C3 counterexample: with the dynamic key `k` bound to `1` in one row
and `"s"` in another, schema inference does not fail — it silently widens
`k` to the string type — and `encode_logs` then fails at the
re-serialization step, not with a `SchemaInferenceError`. -/
theorem C3_counterexample :
    infer_json_schema_from_iterator (logCorpus [logIntK, logStrK]) =
      [⟨"k", .utf8, true⟩] ∧
    convert_log_to_record_batch [logIntK, logStrK] =
      .err (.decodeTypeError "k" .utf8) :=
  ⟨rfl, rfl⟩

/-- C3 amended: for any i64 `n` and string `s` bound to the same dynamic
key by two rows, inference silently widens the key's column to the string
type, and `encode_logs` fails at the re-serialization step — the integer
value cannot be read into the string column — not with an inference
error. -/
theorem C3_widens_then_serialize_error (n : Int) (s : String)
    (hn : i64Lo ≤ n ∧ n < i64Hi) :
    infer_json_schema_from_iterator
      (logCorpus [⟨"a", 10, none, none, "INFO", none, [("k", .int n)]⟩,
                  ⟨"a", 20, none, none, "WARN", none, [("k", .str s)]⟩]) =
      [⟨"k", .utf8, true⟩] ∧
    convert_log_to_record_batch
      [⟨"a", 10, none, none, "INFO", none, [("k", .int n)]⟩,
       ⟨"a", 20, none, none, "WARN", none, [("k", .str s)]⟩] =
      .err (.decodeTypeError "k" .utf8) := by
  simp +decide [convert_log_to_record_batch, logDoc, logFixedDoc, fieldMapOf, mapExtend,
    mapInsert, mapLookup, logCorpus, infer_json_schema_from_iterator, collectDoc,
    addObservation, scalarTypeOf, coerce_data_type, coerce2, schemaTryMerge,
    mergeField, fieldTryMerge, schema_log, exceptMapList, decodeRow, decodeCell,
    jOfOptNat, jOfOptStr, hn.1, hn.2]

/-- C10: when a row's dynamic field map binds a key that names one of the
six fixed log columns, the row document built for that row hands the key
the dynamic field's value — `map.extend(field_map)` overwrites the fixed
value before serialization against the merged schema. -/
theorem C10_dynamic_overwrites_fixed (l : Log) (k : String) (v : JVal)
    (hk : k ∈ ["process_id", "time", "trace_id", "span_id", "level", "message"])
    (hv : mapLookup (fieldMapOf l) k = some v) :
    mapLookup (logDoc l) k = some v := by
  have hne : (fieldMapOf l).isEmpty = false := by
    cases hfm : fieldMapOf l
    · rw [hfm] at hv; cases hv
    · rfl
  unfold logDoc
  rw [hne]
  simp only [Bool.false_eq_true, if_false]
  rw [mapLookup_mapExtend,
    lastBind_eq_mapLookup (fieldMapOf l) k (nodup_keysOf_dedupKeys l.fields), hv]

theorem C10_witness :
    ("message" ∈ ["process_id", "time", "trace_id", "span_id", "level", "message"]) ∧
    mapLookup (fieldMapOf logCollideSame) "message" = some (.str "dyn") ∧
    mapLookup (logDoc logCollideSame) "message" = some (.str "dyn") :=
  ⟨by decide, rfl,
    C10_dynamic_overwrites_fixed logCollideSame "message" (.str "dyn") (by decide) rfl⟩

/-- C9: on a non-empty input whose tags all serialize, the batch
construction never takes its error branch: the encoder returns the batch
whose schema is the span schema and whose eight columns are exactly the
per-field projections of the input spans, in input order, one cell per
row. -/
theorem C9_encode_spans_success (spans : List Span) (h1 : spans ≠ [])
    (h2 : ∀ s ∈ spans, (serializeTags s.tags).isSome) :
    convert_span_to_record_batch spans = .ok ⟨schema_span, spanCols spans⟩ ∧
    (spanCols spans).length = schema_span.length ∧
    ∀ c ∈ spanCols spans, c.cells.length = spans.length := by
  refine ⟨encode_spans_ok spans h1 h2, rfl, fun c hc => ?_⟩
  simp only [spanCols, List.mem_cons, List.not_mem_nil, or_false] at hc
  rcases hc with rfl | rfl | rfl | rfl | rfl | rfl | rfl | rfl <;> simp

theorem C9_witness :
    ([span0] ≠ [] ∧ ∀ s ∈ [span0], (serializeTags s.tags).isSome) ∧
    (convert_span_to_record_batch [span0] = .ok ⟨schema_span, spanCols [span0]⟩ ∧
      (spanCols [span0]).length = schema_span.length ∧
      ∀ c ∈ spanCols [span0], c.cells.length = [span0].length) :=
  ⟨⟨by simp, fun s hs => by rw [List.mem_singleton.mp hs]; rfl⟩,
    C9_encode_spans_success [span0] (by simp)
      (fun s hs => by rw [List.mem_singleton.mp hs]; rfl)⟩

/-- C2: decoding the batch encoded from any non-empty sequence of spans
(each tags document serializable) yields rows matching the input
field-for-field and in order, the tags compared as structured key-to-value
data with key order irrelevant. -/
theorem C2_span_roundtrip (spans : List Span) (h1 : spans ≠ [])
    (h2 : ∀ s ∈ spans, (serializeTags s.tags).isSome) :
    ∃ b rows, convert_span_to_record_batch spans = .ok b ∧
      serialize_record_batches spanFromDoc [b] = .ok rows ∧
      List.Forall₂ spanSemEq rows spans := by
  refine ⟨⟨schema_span, spanCols spans⟩, spans.map canonSpan,
    encode_spans_ok spans h1 h2, serialize_spanBatch spans, ?_⟩
  rw [List.forall₂_map_left_iff]
  refine List.forall₂_same.mpr fun s hs => ?_
  rcases hts : s.tags with kvs | _
  · refine ⟨rfl, rfl, rfl, rfl, rfl, rfl, rfl, ?_⟩
    simp only [canonSpan, hts, tagsSemEq, TagsVal.kvs]
    exact fun k => mapLookup_dedupKeys_dedupKeys kvs k
  · exact absurd (h2 s hs) (by rw [hts]; simp [serializeTags])

theorem C2_witness :
    ([span0] ≠ [] ∧ ∀ s ∈ [span0], (serializeTags s.tags).isSome) ∧
    ∃ b rows, convert_span_to_record_batch [span0] = .ok b ∧
      serialize_record_batches spanFromDoc [b] = .ok rows ∧
      List.Forall₂ spanSemEq rows [span0] :=
  ⟨⟨by simp, fun s hs => by rw [List.mem_singleton.mp hs]; rfl⟩,
    C2_span_roundtrip [span0] (by simp)
      (fun s hs => by rw [List.mem_singleton.mp hs]; rfl)⟩

/-- C8: when every row's dynamic fields mapping is empty, `encode_logs`
succeeds on any non-empty input (fields in machine range, as the Rust
types guarantee) and the batch's schema is exactly the six fixed log
columns. -/
theorem C8_all_empty_fields_fixed_schema (logs : List Log) (h1 : logs ≠ [])
    (h2 : ∀ l ∈ logs, l.fields = []) (h3 : ∀ l ∈ logs, logInRangeB l = true) :
    ∃ b, convert_log_to_record_batch logs = .ok b ∧ b.schema = schema_log := by
  have hdoc : logs.map logDoc = logs.map logFixedDoc := by
    refine List.map_congr_left fun l hl => ?_
    unfold logDoc
    rw [fieldMapOf, h2 l hl]
    rfl
  have hcorpus : logCorpus logs = [] := by
    rw [logCorpus, List.filterMap_eq_nil_iff]
    intro l hl
    rw [fieldMapOf, h2 l hl]
    rfl
  have hmerge : schemaTryMerge schema_log (infer_json_schema_from_iterator []) =
      .ok schema_log := rfl
  have hrows : exceptMapList (decodeRow schema_log) (logs.map logDoc) =
      .ok (logs.map logRowCells) := by
    rw [hdoc, exceptMapList_map]
    exact exceptMapList_ok_of_forall _ _ logs fun l hl => decodeRow_fixed l (h3 l hl)
  have hne : (logs.map logRowCells).isEmpty = false := by
    cases logs with
    | nil => exact absurd rfl h1
    | cons a as => rfl
  exact ⟨⟨schema_log, colsOfRows schema_log (logs.map logRowCells)⟩,
    by simp only [convert_log_to_record_batch, hcorpus, hmerge, hrows, hne,
      Bool.false_eq_true, if_false], rfl⟩

theorem C8_witness :
    ([logEmptyFields] ≠ [] ∧ (∀ l ∈ [logEmptyFields], l.fields = []) ∧
      (∀ l ∈ [logEmptyFields], logInRangeB l = true)) ∧
    ∃ b, convert_log_to_record_batch [logEmptyFields] = .ok b ∧ b.schema = schema_log :=
  ⟨⟨by simp, fun l hl => by rw [List.mem_singleton.mp hl]; rfl,
      fun l hl => by rw [List.mem_singleton.mp hl]; decide⟩,
    C8_all_empty_fields_fixed_schema [logEmptyFields] (by simp)
      (fun l hl => by rw [List.mem_singleton.mp hl]; rfl)
      (fun l hl => by rw [List.mem_singleton.mp hl]; decide)⟩

theorem C3_witness :
    (i64Lo ≤ (1 : Int) ∧ (1 : Int) < i64Hi) ∧
    (infer_json_schema_from_iterator (logCorpus [logIntK, logStrK]) =
       [⟨"k", .utf8, true⟩] ∧
     convert_log_to_record_batch [logIntK, logStrK] =
       .err (.decodeTypeError "k" .utf8)) :=
  ⟨by decide, C3_widens_then_serialize_error 1 "s" (by decide)⟩

end Duo
